import Mathlib

/-!
Verification of the multi-strategy content-aware cropping selector of
`src/scripts/clip.py` (function `resize_for_tiktok`), as a shallow embedding.

Pixel coordinates are natural numbers; heat-map and saliency values are exact
rationals (the Python code uses floats; all constants involved, such as the
fusion weights 0.6 / 0.4 and the 9:16 ratio, are modelled as the rationals the
source text denotes).  Heat maps of shape `height x width` are modelled as
functions `Nat → Nat → ℚ` taking the row index `y` first and the column `x`
second, matching `numpy` indexing `map[y, x]`.
-/

namespace Trod

/-! ## Crop window selector (clip.py lines 540-563)

`target_width = int(height * (9/16))`; if it exceeds the width the code keeps
the width and sets `target_height = int(width * (16/9))`, else it keeps the
height.  Integer truncation of those products is exact rational floor, i.e.
natural-number division here. -/

/-- Target crop dimensions `(target_width, target_height)`, clip.py 542-549. -/
def targetDims (width height : Nat) : Nat × Nat :=
  let tw := height * 9 / 16
  if tw > width then (width, width * 16 / 9) else (tw, height)

/-- Sum of heat-map values strictly inside the window of size
`target_width x target_height` anchored at column `x0`, row 0:
`np.sum(avg_heat_map[:target_height, x0:x0+target_width])`, clip.py 558. -/
def windowScore (heat : Nat → Nat → ℚ) (th tw x0 : Nat) : ℚ :=
  ((List.range th).map fun y =>
    ((List.range tw).map fun dx => heat y (x0 + dx)).sum).sum

/-- Candidate horizontal offsets
`range(0, width - target_width + 1, max(1, (width - target_width) // 10))`,
clip.py 556. -/
def candidateXs (width tw : Nat) : List Nat :=
  let n := width - tw
  let step := max 1 (n / 10)
  (List.range (n / step + 1)).map fun i => i * step

/-- The scan loop of clip.py 552-562: running best `(score, x)` pair,
updated only on a strictly greater score. -/
def selectLoop (score : Nat → ℚ) : List Nat → ℚ × Nat → ℚ × Nat
  | [], acc => acc
  | x :: xs, acc =>
      selectLoop score xs (if acc.1 < score x then (score x, x) else acc)

/-- The value of `best_x` after the scan, starting from `best_score = -1`, `best_x = 0`. -/
def bestX (heat : Nat → Nat → ℚ) (th tw width : Nat) : Nat :=
  (selectLoop (windowScore heat th tw) (candidateXs width tw) (-1, 0)).2

/-- Crop window in source-pixel units; the vertical offset is the literal `0`
of the ffmpeg filter `crop={tw}:{th}:{best_x}:0`, clip.py 587. -/
structure CropWindow where
  x : Nat
  y : Nat
  width : Nat
  height : Nat
deriving DecidableEq, Repr

/-- The crop window the selector returns for a given heat map, clip.py 540-564
and the filter expression at 587. -/
def cropWindowFor (heat : Nat → Nat → ℚ) (width height : Nat) : CropWindow :=
  let tw := (targetDims width height).1
  let th := (targetDims width height).2
  { x := bestX heat th tw width, y := 0, width := tw, height := th }

/-! ## Selector loop lemmas -/

theorem selectLoop_snd_mem (score : Nat → ℚ) :
    ∀ (l : List Nat) (bs : ℚ) (bx : Nat),
      (selectLoop score l (bs, bx)).2 = bx ∨ (selectLoop score l (bs, bx)).2 ∈ l := by
  intro l
  induction l with
  | nil => intro bs bx; left; rfl
  | cons c t ih =>
      intro bs bx
      simp only [selectLoop]
      by_cases h : bs < score c
      · simp only [if_pos h]
        rcases ih (score c) c with h' | h'
        · right; rw [h']; exact List.mem_cons_self c t
        · right; exact List.mem_cons_of_mem c h'
      · simp only [if_neg h]
        rcases ih bs bx with h' | h'
        · left; exact h'
        · right; exact List.mem_cons_of_mem c h'

theorem selectLoop_spec (score : Nat → ℚ) :
    ∀ (l : List Nat) (bs : ℚ) (bx : Nat),
      List.Pairwise (· < ·) l → (∀ x ∈ l, bx < x) →
      (selectLoop score l (bs, bx) = (bs, bx) ∨
        ((selectLoop score l (bs, bx)).2 ∈ l ∧
         (selectLoop score l (bs, bx)).1 = score (selectLoop score l (bs, bx)).2 ∧
         bs < (selectLoop score l (bs, bx)).1)) ∧
      bs ≤ (selectLoop score l (bs, bx)).1 ∧
      (∀ x ∈ l, score x ≤ (selectLoop score l (bs, bx)).1) ∧
      (∀ x ∈ l, score x = (selectLoop score l (bs, bx)).1 →
        (selectLoop score l (bs, bx)).2 ≤ x) := by
  intro l
  induction l with
  | nil =>
      intro bs bx _ _
      refine ⟨Or.inl rfl, le_refl _, ?_, ?_⟩ <;> intro x hx <;> cases hx
  | cons c t ih =>
      intro bs bx hpair hlt
      have hpt : List.Pairwise (· < ·) t := (List.pairwise_cons.mp hpair).2
      have hct : ∀ x ∈ t, c < x := (List.pairwise_cons.mp hpair).1
      have hbc : bx < c := hlt c (List.mem_cons_self c t)
      simp only [selectLoop]
      by_cases h : bs < score c
      · simp only [if_pos h]
        obtain ⟨ha, hb, hc', hd⟩ := ih (score c) c hpt hct
        refine ⟨?_, le_trans (le_of_lt h) hb, ?_, ?_⟩
        · rcases ha with ha | ha
          · right
            refine ⟨?_, ?_, ?_⟩
            · rw [ha]; exact List.mem_cons_self c t
            · rw [ha]
            · rw [ha]; exact h
          · right
            exact ⟨List.mem_cons_of_mem c ha.1, ha.2.1, lt_trans h ha.2.2⟩
        · intro x hx
          rcases List.mem_cons.mp hx with hx | hx
          · rw [hx]; exact hb
          · exact hc' x hx
        · intro x hx hsx
          rcases List.mem_cons.mp hx with hx | hx
          · subst hx
            rcases ha with ha | ha
            · rw [ha]
            · exact absurd ha.2.2 hsx.not_lt
          · exact hd x hx hsx
      · simp only [if_neg h]
        have hsc : score c ≤ bs := le_of_not_lt h
        obtain ⟨ha, hb, hc', hd⟩ := ih bs bx hpt (fun x hx => lt_trans hbc (hct x hx))
        refine ⟨?_, hb, ?_, ?_⟩
        · rcases ha with ha | ha
          · left; exact ha
          · right; exact ⟨List.mem_cons_of_mem c ha.1, ha.2⟩
        · intro x hx
          rcases List.mem_cons.mp hx with hx | hx
          · rw [hx]; exact le_trans hsc hb
          · exact hc' x hx
        · intro x hx hsx
          rcases List.mem_cons.mp hx with hx | hx
          · subst hx
            have hbs : bs = (selectLoop score t (bs, bx)).1 :=
              le_antisymm hb (hsx ▸ hsc)
            rcases ha with ha | ha
            · rw [ha]; exact le_of_lt hbc
            · exact absurd ha.2.2 hbs.not_lt
          · exact hd x hx hsx

/-! ## Candidate list lemmas -/

theorem mem_candidateXs (width tw x : Nat) :
    x ∈ candidateXs width tw ↔
      ∃ i, i ≤ (width - tw) / max 1 ((width - tw) / 10) ∧
        x = i * max 1 ((width - tw) / 10) := by
  simp only [candidateXs, List.mem_map, List.mem_range, Nat.lt_succ_iff]
  constructor
  · rintro ⟨i, hi, rfl⟩; exact ⟨i, hi, rfl⟩
  · rintro ⟨i, hi, rfl⟩; exact ⟨i, hi, rfl⟩

theorem zero_mem_candidateXs (width tw : Nat) : 0 ∈ candidateXs width tw := by
  rw [mem_candidateXs]
  exact ⟨0, Nat.zero_le _, by simp⟩

theorem candidateXs_le (width tw x : Nat) (hx : x ∈ candidateXs width tw) :
    x ≤ width - tw := by
  rw [mem_candidateXs] at hx
  obtain ⟨i, hi, rfl⟩ := hx
  calc i * max 1 ((width - tw) / 10)
      ≤ ((width - tw) / max 1 ((width - tw) / 10)) * max 1 ((width - tw) / 10) :=
        Nat.mul_le_mul_right _ hi
    _ ≤ width - tw := Nat.div_mul_le_self _ _

theorem candidateXs_pairwise (width tw : Nat) :
    List.Pairwise (· < ·) (candidateXs width tw) := by
  refine List.Pairwise.map _ ?_ (List.pairwise_lt_range _)
  intro a b hab
  exact (Nat.mul_lt_mul_right (lt_of_lt_of_le Nat.one_pos (le_max_left _ _))).mpr hab

theorem candidateXs_eq_cons (width tw : Nat) :
    candidateXs width tw =
      0 :: (List.range ((width - tw) / max 1 ((width - tw) / 10))).map
        (fun i => (i + 1) * max 1 ((width - tw) / 10)) := by
  simp only [candidateXs, List.range_succ_eq_map, List.map_cons, Nat.zero_mul,
    List.map_map]
  rfl

theorem windowScore_nonneg (heat : Nat → Nat → ℚ) (hnn : ∀ y x, 0 ≤ heat y x)
    (th tw x0 : Nat) : 0 ≤ windowScore heat th tw x0 := by
  refine List.sum_nonneg ?_
  intro v hv
  obtain ⟨y, _, rfl⟩ := List.mem_map.mp hv
  refine List.sum_nonneg ?_
  intro u hu
  obtain ⟨dx, _, rfl⟩ := List.mem_map.mp hu
  exact hnn y (x0 + dx)

/-- Main selector correctness: the scan returns a candidate position whose
window score is maximal among all candidate positions, and among equal-score
candidates the smallest `x`. -/
theorem bestX_spec (heat : Nat → Nat → ℚ) (hnn : ∀ y x, 0 ≤ heat y x)
    (th tw width : Nat) :
    bestX heat th tw width ∈ candidateXs width tw ∧
      (∀ x ∈ candidateXs width tw,
        windowScore heat th tw x ≤ windowScore heat th tw (bestX heat th tw width) ∧
        (windowScore heat th tw x = windowScore heat th tw (bestX heat th tw width) →
          bestX heat th tw width ≤ x)) := by
  set score := windowScore heat th tw with hscore
  have hcons := candidateXs_eq_cons width tw
  set t := (List.range ((width - tw) / max 1 ((width - tw) / 10))).map
      (fun i => (i + 1) * max 1 ((width - tw) / 10)) with ht
  have hpair : List.Pairwise (· < ·) (candidateXs width tw) :=
    candidateXs_pairwise width tw
  have hpt : List.Pairwise (· < ·) t := by
    have := hcons ▸ hpair
    exact (List.pairwise_cons.mp this).2
  have h0t : ∀ x ∈ t, 0 < x := by
    have := hcons ▸ hpair
    exact (List.pairwise_cons.mp this).1
  have hstep : bestX heat th tw width = (selectLoop score t (score 0, 0)).2 := by
    unfold bestX
    rw [← hscore, hcons]
    simp only [selectLoop]
    rw [if_pos (lt_of_lt_of_le (by norm_num : (-1 : ℚ) < 0)
      (windowScore_nonneg heat hnn th tw 0))]
  obtain ⟨ha, hb, hc, hd⟩ := selectLoop_spec score t (score 0) 0 hpt h0t
  constructor
  · rw [hstep, hcons]
    rcases selectLoop_snd_mem score t (score 0) 0 with h' | h'
    · rw [h']; exact List.mem_cons_self 0 t
    · exact List.mem_cons_of_mem 0 h'
  · intro x hx
    have hfst : (selectLoop score t (score 0, 0)).1 =
        score (bestX heat th tw width) := by
      rcases ha with ha | ha
      · rw [hstep, ha]
      · rw [hstep]; exact ha.2.1
    rw [hcons] at hx
    rcases List.mem_cons.mp hx with hx | hx
    · subst hx
      constructor
      · rw [← hfst]; exact hb
      · intro heq
        rcases ha with ha | ha
        · rw [hstep, ha]
        · exact absurd ha.2.2 (heq.trans hfst.symm).not_lt
    · constructor
      · rw [← hfst]; exact hc x hx
      · intro heq
        rw [hstep]
        exact hd x hx (heq.trans hfst.symm)

theorem bestX_mem (heat : Nat → Nat → ℚ) (th tw width : Nat) :
    bestX heat th tw width ∈ candidateXs width tw := by
  unfold bestX
  rcases selectLoop_snd_mem (windowScore heat th tw) (candidateXs width tw) (-1) 0
    with h | h
  · rw [h]; exact zero_mem_candidateXs width tw
  · exact h

/-! ## Target dimension lemmas -/

theorem targetDims_spec (width height : Nat) :
    (targetDims width height).1 ≤ width ∧
    (targetDims width height).2 ≤ height ∧
    9 * (targetDims width height).2 < 16 * (targetDims width height).1 + 16 ∧
    16 * (targetDims width height).1 < 9 * (targetDims width height).2 + 16 ∧
    (height * 9 / 16 ≤ width →
      targetDims width height = (height * 9 / 16, height)) ∧
    (width < height * 9 / 16 →
      targetDims width height = (width, width * 16 / 9) ∧
      (targetDims width height).2 < height) := by
  by_cases hbr : height * 9 / 16 > width
  · have hm9 : 9 * (width * 16 / 9) + width * 16 % 9 = width * 16 :=
      Nat.div_add_mod (width * 16) 9
    have hmod9 : width * 16 % 9 < 9 := Nat.mod_lt _ (by norm_num)
    have hge : (width + 1) * 16 ≤ height * 9 :=
      (Nat.le_div_iff_mul_le (by norm_num : 0 < 16)).mp hbr
    have hth : width * 16 / 9 < height := by
      rw [Nat.div_lt_iff_lt_mul (by norm_num : 0 < 9)]
      omega
    have heq : targetDims width height = (width, width * 16 / 9) := by
      unfold targetDims
      rw [if_pos hbr]
    rw [heq]
    refine ⟨le_refl _, le_of_lt hth, ?_, ?_, ?_, ?_⟩
    · show 9 * (width * 16 / 9) < 16 * width + 16
      omega
    · show 16 * width < 9 * (width * 16 / 9) + 16
      omega
    · intro hcon
      exact absurd hbr (not_lt.mpr hcon)
    · intro _
      exact ⟨rfl, hth⟩
  · have hle : height * 9 / 16 ≤ width := le_of_not_lt hbr
    have hm16 : 16 * (height * 9 / 16) + height * 9 % 16 = height * 9 :=
      Nat.div_add_mod (height * 9) 16
    have hmod16 : height * 9 % 16 < 16 := Nat.mod_lt _ (by norm_num)
    have heq : targetDims width height = (height * 9 / 16, height) := by
      unfold targetDims
      rw [if_neg hbr]
    rw [heq]
    refine ⟨hle, le_refl _, ?_, ?_, fun _ => rfl, ?_⟩
    · show 9 * height < 16 * (height * 9 / 16) + 16
      omega
    · show 16 * (height * 9 / 16) < 9 * height + 16
      omega
    · intro hcon
      exact absurd hcon (not_lt.mpr hle)

/-! ## Heat map aggregation (clip.py lines 496-538)

Fusion weights from clip.py 504-505; a face rectangle is painted onto the
per-frame map by `cv2.rectangle(..., face_weight, -1)` (filled overwrite,
clip.py 523, both corners inclusive), then the per-frame saliency map is
min-max normalized into `[0, salience_weight]` and added
(`cv2.normalize(..., 0, salience_weight, cv2.NORM_MINMAX)`, clip.py 531;
a constant saliency map normalizes to all zeros).  The aggregate map is the
elementwise sum over the sampled frames divided by their number, clip.py
533-538; when no frame contributed the division is skipped and the map stays
all-zero. -/

def face_weight : ℚ := 0.6

def salience_weight : ℚ := 0.4

structure FaceRect where
  x : Nat
  y : Nat
  w : Nat
  h : Nat

structure SampleFrame where
  faces : List FaceRect
  sal : Nat → Nat → ℚ

/-- Pixel `(y, x)` lies in the painted (filled) rectangle of face `r`. -/
def inFaceRect (r : FaceRect) (y x : Nat) : Bool :=
  decide (r.x ≤ x) && decide (x ≤ r.x + r.w) &&
    decide (r.y ≤ y) && decide (y ≤ r.y + r.h)

/-- All values of a `height x width` map, row major. -/
def gridVals (m : Nat → Nat → ℚ) (width height : Nat) : List ℚ :=
  ((List.range height).map fun y => (List.range width).map fun x => m y x).flatten

def listMin : List ℚ → ℚ
  | [] => 0
  | v :: vs => vs.foldl min v

def listMax : List ℚ → ℚ
  | [] => 0
  | v :: vs => vs.foldl max v

def gridMin (m : Nat → Nat → ℚ) (width height : Nat) : ℚ :=
  listMin (gridVals m width height)

def gridMax (m : Nat → Nat → ℚ) (width height : Nat) : ℚ :=
  listMax (gridVals m width height)

/-- Model of `cv2.normalize(sal, None, 0, salience_weight, cv2.NORM_MINMAX)`:
affine rescale of the frame grid onto `[0, salience_weight]`; a constant map
(zero range) yields the all-zero map. -/
def normMinMax (m : Nat → Nat → ℚ) (width height : Nat) : Nat → Nat → ℚ :=
  fun y x =>
    let lo := gridMin m width height
    let hi := gridMax m width height
    if lo < hi then (m y x - lo) * salience_weight / (hi - lo) else 0

/-- Per-frame contribution map: painted faces overwritten to `face_weight`,
then normalized saliency added, clip.py 515-531. -/
def frameContrib (width height : Nat) (f : SampleFrame) (y x : Nat) : ℚ :=
  (if f.faces.any (fun r => inFaceRect r y x) then face_weight else 0) +
    normMinMax f.sal width height y x

/-- Aggregated heat map, clip.py 502-538: elementwise sum of per-frame
contributions, divided by the frame count when it is nonzero. -/
def aggHeat (width height : Nat) (frames : List SampleFrame) : Nat → Nat → ℚ :=
  fun y x =>
    let s := (frames.map fun f => frameContrib width height f y x).sum
    if frames.length = 0 then s else s / (frames.length : ℚ)

/-- The scene+saliency+face stage's crop window for the sampled frames. -/
def sceneStageCrop (width height : Nat) (frames : List SampleFrame) : CropWindow :=
  cropWindowFor (aggHeat width height frames) width height

/-! ## Grid extrema lemmas -/

theorem foldl_min_le_init (l : List ℚ) : ∀ a : ℚ, l.foldl min a ≤ a := by
  induction l with
  | nil => intro a; exact le_refl a
  | cons c t ih =>
      intro a
      simp only [List.foldl_cons]
      exact le_trans (ih (min a c)) (min_le_left a c)

theorem foldl_min_le_mem (l : List ℚ) : ∀ a x : ℚ, x ∈ l → l.foldl min a ≤ x := by
  induction l with
  | nil => intro a x hx; cases hx
  | cons c t ih =>
      intro a x hx
      simp only [List.foldl_cons]
      rcases List.mem_cons.mp hx with hx | hx
      · subst hx
        exact le_trans (foldl_min_le_init t (min a x)) (min_le_right a x)
      · exact ih (min a c) x hx

theorem init_le_foldl_max (l : List ℚ) : ∀ a : ℚ, a ≤ l.foldl max a := by
  induction l with
  | nil => intro a; exact le_refl a
  | cons c t ih =>
      intro a
      simp only [List.foldl_cons]
      exact le_trans (le_max_left a c) (ih (max a c))

theorem mem_le_foldl_max (l : List ℚ) : ∀ a x : ℚ, x ∈ l → x ≤ l.foldl max a := by
  induction l with
  | nil => intro a x hx; cases hx
  | cons c t ih =>
      intro a x hx
      simp only [List.foldl_cons]
      rcases List.mem_cons.mp hx with hx | hx
      · subst hx
        exact le_trans (le_max_right a x) (init_le_foldl_max t (max a x))
      · exact ih (max a c) x hx

theorem listMin_le_mem (l : List ℚ) (x : ℚ) (hx : x ∈ l) : listMin l ≤ x := by
  cases l with
  | nil => cases hx
  | cons c t =>
      simp only [listMin]
      rcases List.mem_cons.mp hx with hx | hx
      · subst hx; exact foldl_min_le_init t x
      · exact foldl_min_le_mem t c x hx

theorem mem_le_listMax (l : List ℚ) (x : ℚ) (hx : x ∈ l) : x ≤ listMax l := by
  cases l with
  | nil => cases hx
  | cons c t =>
      simp only [listMax]
      rcases List.mem_cons.mp hx with hx | hx
      · subst hx; exact init_le_foldl_max t x
      · exact mem_le_foldl_max t c x hx

theorem foldl_min_all_eq (l : List ℚ) : ∀ a : ℚ, (∀ x ∈ l, x = a) → l.foldl min a = a := by
  induction l with
  | nil => intro a _; rfl
  | cons c t ih =>
      intro a hall
      simp only [List.foldl_cons]
      have hc : c = a := hall c (List.mem_cons_self c t)
      subst hc
      rw [min_self]
      exact ih c fun x hx => hall x (List.mem_cons_of_mem c hx)

theorem foldl_max_all_eq (l : List ℚ) : ∀ a : ℚ, (∀ x ∈ l, x = a) → l.foldl max a = a := by
  induction l with
  | nil => intro a _; rfl
  | cons c t ih =>
      intro a hall
      simp only [List.foldl_cons]
      have hc : c = a := hall c (List.mem_cons_self c t)
      subst hc
      rw [max_self]
      exact ih c fun x hx => hall x (List.mem_cons_of_mem c hx)

theorem mem_gridVals (m : Nat → Nat → ℚ) (width height y x : Nat)
    (hy : y < height) (hx : x < width) : m y x ∈ gridVals m width height := by
  unfold gridVals
  rw [List.mem_flatten]
  refine ⟨(List.range width).map fun x => m y x, ?_, ?_⟩
  · exact List.mem_map.mpr ⟨y, List.mem_range.mpr hy, rfl⟩
  · exact List.mem_map.mpr ⟨x, List.mem_range.mpr hx, rfl⟩

theorem gridMin_le (m : Nat → Nat → ℚ) (width height y x : Nat)
    (hy : y < height) (hx : x < width) : gridMin m width height ≤ m y x :=
  listMin_le_mem _ _ (mem_gridVals m width height y x hy hx)

theorem le_gridMax (m : Nat → Nat → ℚ) (width height y x : Nat)
    (hy : y < height) (hx : x < width) : m y x ≤ gridMax m width height :=
  mem_le_listMax _ _ (mem_gridVals m width height y x hy hx)

theorem gridVals_const (c : ℚ) (width height : Nat) :
    ∀ v ∈ gridVals (fun _ _ => c) width height, v = c := by
  intro v hv
  unfold gridVals at hv
  rw [List.mem_flatten] at hv
  obtain ⟨l, hl, hvl⟩ := hv
  obtain ⟨y, _, rfl⟩ := List.mem_map.mp hl
  obtain ⟨x, _, rfl⟩ := List.mem_map.mp hvl
  rfl

theorem normMinMax_const (c : ℚ) (width height y x : Nat) :
    normMinMax (fun _ _ => c) width height y x = 0 := by
  have hmm : gridMin (fun _ _ => c) width height = gridMax (fun _ _ => c) width height := by
    unfold gridMin gridMax
    cases hgv : gridVals (fun _ _ => c) width height with
    | nil => rfl
    | cons v vs =>
        have hall := gridVals_const c width height
        rw [hgv] at hall
        have hv : v = c := hall v (List.mem_cons_self v vs)
        have hvs : ∀ u ∈ vs, u = c := fun u hu => hall u (List.mem_cons_of_mem v hu)
        simp only [listMin, listMax]
        rw [hv, foldl_min_all_eq vs c hvs, foldl_max_all_eq vs c hvs]
  simp only [normMinMax]
  rw [if_neg (hmm ▸ lt_irrefl _)]

/-! ## Heat-map value bounds -/

theorem normMinMax_nonneg (m : Nat → Nat → ℚ) (width height y x : Nat)
    (hy : y < height) (hx : x < width) : 0 ≤ normMinMax m width height y x := by
  simp only [normMinMax]
  by_cases hlh : gridMin m width height < gridMax m width height
  · rw [if_pos hlh]
    have hlo := gridMin_le m width height y x hy hx
    refine div_nonneg (mul_nonneg (by linarith) ?_) (by linarith)
    norm_num [salience_weight]
  · rw [if_neg hlh]

theorem normMinMax_le (m : Nat → Nat → ℚ) (width height y x : Nat)
    (hy : y < height) (hx : x < width) :
    normMinMax m width height y x ≤ salience_weight := by
  simp only [normMinMax]
  by_cases hlh : gridMin m width height < gridMax m width height
  · rw [if_pos hlh]
    have hlo := gridMin_le m width height y x hy hx
    have hhi := le_gridMax m width height y x hy hx
    rw [div_le_iff₀ (by linarith : (0:ℚ) < gridMax m width height - gridMin m width height)]
    have hsw : (0:ℚ) ≤ salience_weight := by norm_num [salience_weight]
    calc (m y x - gridMin m width height) * salience_weight
        ≤ (gridMax m width height - gridMin m width height) * salience_weight :=
          mul_le_mul_of_nonneg_right (by linarith) hsw
      _ = salience_weight * (gridMax m width height - gridMin m width height) := by ring
  · rw [if_neg hlh]
    norm_num [salience_weight]

theorem frameContrib_nonneg (width height : Nat) (f : SampleFrame) (y x : Nat)
    (hy : y < height) (hx : x < width) : 0 ≤ frameContrib width height f y x := by
  unfold frameContrib
  have hn := normMinMax_nonneg f.sal width height y x hy hx
  by_cases hf : f.faces.any (fun r => inFaceRect r y x)
  · rw [if_pos hf]
    have : (0:ℚ) ≤ face_weight := by norm_num [face_weight]
    linarith
  · rw [if_neg hf]
    linarith

theorem frameContrib_le_one (width height : Nat) (f : SampleFrame) (y x : Nat)
    (hy : y < height) (hx : x < width) : frameContrib width height f y x ≤ 1 := by
  unfold frameContrib
  have hn := normMinMax_le f.sal width height y x hy hx
  have hsw : salience_weight = (0.4:ℚ) := rfl
  have hfw : face_weight = (0.6:ℚ) := rfl
  by_cases hf : f.faces.any (fun r => inFaceRect r y x)
  · rw [if_pos hf, hfw]
    rw [hsw] at hn
    linarith
  · rw [if_neg hf]
    rw [hsw] at hn
    linarith

/-! ## Zero heat-map lemmas (the degenerate no-frames path) -/

def zeroHeat : Nat → Nat → ℚ := fun _ _ => 0

theorem aggHeat_nil (width height y x : Nat) : aggHeat width height [] y x = 0 := rfl

theorem windowScore_of_zero (heat : Nat → Nat → ℚ) (hz : ∀ y x, heat y x = 0)
    (th tw x0 : Nat) : windowScore heat th tw x0 = 0 := by
  unfold windowScore
  refine List.sum_eq_zero ?_
  intro v hv
  obtain ⟨y, _, rfl⟩ := List.mem_map.mp hv
  refine List.sum_eq_zero ?_
  intro u hu
  obtain ⟨dx, _, rfl⟩ := List.mem_map.mp hu
  exact hz y (x0 + dx)

theorem bestX_of_zero (heat : Nat → Nat → ℚ) (hz : ∀ y x, heat y x = 0)
    (th tw width : Nat) : bestX heat th tw width = 0 := by
  have hnn : ∀ y x, 0 ≤ heat y x := fun y x => le_of_eq (hz y x).symm
  obtain ⟨_, hall⟩ := bestX_spec heat hnn th tw width
  have h0 := hall 0 (zero_mem_candidateXs width tw)
  have hs0 : windowScore heat th tw 0 = 0 := windowScore_of_zero heat hz th tw 0
  have hsb : windowScore heat th tw (bestX heat th tw width) = 0 :=
    windowScore_of_zero heat hz th tw _
  have := h0.2 (by rw [hs0, hsb])
  omega

theorem sceneStageCrop_nil (width height : Nat) :
    sceneStageCrop width height [] =
      ⟨0, 0, (targetDims width height).1, (targetDims width height).2⟩ := by
  show CropWindow.mk
      (bestX (aggHeat width height []) (targetDims width height).2
        (targetDims width height).1 width)
      0 (targetDims width height).1 (targetDims width height).2 = _
  rw [bestX_of_zero _ (fun y x => aggHeat_nil width height y x)]

/-! ## Scene list normalization (clip.py lines 445-454) -/

/-- Model of `if len(scene_list) == 0 or len(scene_list) > 20: scene_list = [(0, total_frames)]`. -/
def effectiveScenes (scenes : List (Nat × Nat)) (totalFrames : Nat) : List (Nat × Nat) :=
  if scenes.length = 0 ∨ scenes.length > 20 then [(0, totalFrames)] else scenes

/-! ## Claim theorems -/

/-- Claim C1: the scene+saliency+face crop selector scans the candidate
offsets `range(0, width - target_width + 1, max(1, (width - target_width) / 10))`
left to right and returns the position with the maximal enclosed heat-map sum;
any candidate with a distinct (hence smaller) sum loses, and among candidates
tying at the maximum the leftmost (smallest x) is returned. -/
theorem crop_selector_argmax_leftmost (width tw th : Nat) (heat : Nat → Nat → ℚ)
    (hnn : ∀ y x, 0 ≤ heat y x) :
    bestX heat th tw width ∈ candidateXs width tw ∧
      ∀ x ∈ candidateXs width tw,
        windowScore heat th tw x ≤ windowScore heat th tw (bestX heat th tw width) ∧
        (windowScore heat th tw x = windowScore heat th tw (bestX heat th tw width) →
          bestX heat th tw width ≤ x) :=
  bestX_spec heat hnn th tw width

/-- Witness for C1 at a concrete nonnegative heat map. -/
theorem crop_selector_argmax_leftmost_w :
    windowScore zeroHeat 2 4 0 ≤ windowScore zeroHeat 2 4 (bestX zeroHeat 2 4 12) :=
  ((crop_selector_argmax_leftmost 12 4 2 zeroHeat fun _ _ => le_refl 0).2 0
    (zero_mem_candidateXs 12 4)).1

/-- Claim C2: for every heat map the selected crop window lies inside the
frame with vertical offset 0, its width/height ratio is 9/16 within integer
truncation tolerance (`|9*h - 16*w| < 16`), and the target dimensions keep the
video height when a 9:16 window of that height fits horizontally, else keep
the width and reduce the height. -/
theorem crop_selector_window_valid (width height : Nat) (heat : Nat → Nat → ℚ) :
    (cropWindowFor heat width height).y = 0 ∧
    (cropWindowFor heat width height).x + (cropWindowFor heat width height).width ≤ width ∧
    (cropWindowFor heat width height).height ≤ height ∧
    9 * (cropWindowFor heat width height).height <
      16 * (cropWindowFor heat width height).width + 16 ∧
    16 * (cropWindowFor heat width height).width <
      9 * (cropWindowFor heat width height).height + 16 ∧
    (height * 9 / 16 ≤ width →
      (cropWindowFor heat width height).width = height * 9 / 16 ∧
      (cropWindowFor heat width height).height = height) ∧
    (width < height * 9 / 16 →
      (cropWindowFor heat width height).width = width ∧
      (cropWindowFor heat width height).height < height) := by
  obtain ⟨h1, h2, h3, h4, h5, h6⟩ := targetDims_spec width height
  have hxmem := bestX_mem heat (targetDims width height).2 (targetDims width height).1 width
  have hxle := candidateXs_le width (targetDims width height).1 _ hxmem
  have hx : (cropWindowFor heat width height).x =
      bestX heat (targetDims width height).2 (targetDims width height).1 width := rfl
  have hw : (cropWindowFor heat width height).width = (targetDims width height).1 := rfl
  have hh : (cropWindowFor heat width height).height = (targetDims width height).2 := rfl
  refine ⟨rfl, ?_, ?_, ?_, ?_, ?_, ?_⟩
  · rw [hx, hw]; omega
  · rw [hh]; exact h2
  · rw [hh, hw]; exact h3
  · rw [hw, hh]; exact h4
  · intro hc
    rw [hw, hh, h5 hc]
    exact ⟨rfl, rfl⟩
  · intro hc
    obtain ⟨heq, hlt⟩ := h6 hc
    rw [hw, hh, heq]
    rw [heq] at hlt
    exact ⟨rfl, hlt⟩

/-- Witness for C2 at a concrete 16x16 frame (case where the 9:16 window of
the full height fits horizontally). -/
theorem crop_selector_window_valid_w :
    (cropWindowFor zeroHeat 16 16).width = 9 ∧
      (cropWindowFor zeroHeat 16 16).height = 16 :=
  (crop_selector_window_valid 16 16 zeroHeat).2.2.2.2.2.1 (by decide)

/-- Claim C3: a single sampled frame with one face rectangle and all-zero
saliency aggregates to a heat map equal to `face_weight = 0.6` inside the
painted rectangle and `0` elsewhere (the per-frame map paints faces with the
constant weight, adds the min-max-normalized saliency, and the aggregate is
the elementwise sum divided by the number of contributing frames). -/
theorem heatmap_face_only_contribution (width height : Nat) (r : FaceRect) (y x : Nat) :
    aggHeat width height [⟨[r], fun _ _ => 0⟩] y x =
      if inFaceRect r y x then face_weight else 0 := by
  have hcontrib : frameContrib width height ⟨[r], fun _ _ => 0⟩ y x =
      if inFaceRect r y x then face_weight else 0 := by
    unfold frameContrib
    rw [normMinMax_const, add_zero]
    have hany : (List.any [r] fun r' => inFaceRect r' y x) = inFaceRect r y x := by
      simp [List.any_cons]
    rw [hany]
  simp only [aggHeat, List.map_cons, List.map_nil, List.sum_cons, List.sum_nil,
    List.length_cons, List.length_nil]
  rw [if_neg (by norm_num : ¬(0 + 1 = 0)), add_zero, hcontrib]
  norm_num

/-- Claim C5: a detected scene count of zero, or above the cap of 20, collapses
the effective scene list to the single whole-video interval; otherwise the
detected list is used unchanged. -/
theorem scene_list_degenerate_collapse (scenes : List (Nat × Nat)) (totalFrames : Nat) :
    ((scenes.length = 0 ∨ scenes.length > 20) →
      effectiveScenes scenes totalFrames = [(0, totalFrames)]) ∧
    (scenes.length ≠ 0 → scenes.length ≤ 20 →
      effectiveScenes scenes totalFrames = scenes) := by
  constructor
  · intro h
    unfold effectiveScenes
    rw [if_pos h]
  · intro h1 h2
    unfold effectiveScenes
    rw [if_neg (not_or.mpr ⟨h1, by omega⟩)]

/-- Witness for C5: the empty detection collapses; a 2-scene detection is kept. -/
theorem scene_list_degenerate_collapse_w :
    effectiveScenes ([] : List (Nat × Nat)) 300 = [(0, 300)] ∧
      effectiveScenes [(0, 10), (10, 300)] 300 = [(0, 10), (10, 300)] :=
  ⟨(scene_list_degenerate_collapse [] 300).1 (Or.inl rfl),
   (scene_list_degenerate_collapse [(0, 10), (10, 300)] 300).2 (by decide) (by decide)⟩

/-- Claim C7 counterexample: with zero decoded sample frames the
scene+saliency+face stage does NOT fail — the aggregated heat map is all
zeros (the `if len(key_frame_samples) > 0` guard at clip.py 537 only skips
the normalizing division) and the stage proceeds to select the leftmost crop
window `x = 0` over that zero map; there is no `NoFramesAvailable` or
`InsufficientSignal` path anywhere in clip.py 413-627. -/
theorem empty_frames_stage_proceeds_cex :
    aggHeat 1920 1080 [] 100 200 = 0 ∧
      sceneStageCrop 1920 1080 [] = ⟨0, 0, 607, 1080⟩ := by
  constructor
  · rfl
  · rw [sceneStageCrop_nil]
    have h : targetDims 1920 1080 = (607, 1080) := by decide
    rw [h]

/-- Claim C7 amended: if zero sample frames decode, the stage does not fail;
aggregation yields the all-zero heat map and the selector then returns the
window anchored at the leftmost candidate `x = 0` with the usual target
dimensions, which the stage proceeds to transcode. -/
theorem empty_frames_zero_heatmap_crop (width height y x : Nat) :
    aggHeat width height [] y x = 0 ∧
      sceneStageCrop width height [] =
        ⟨0, 0, (targetDims width height).1, (targetDims width height).2⟩ :=
  ⟨aggHeat_nil width height y x, sceneStageCrop_nil width height⟩

/-- Claim C10: every pixel of the aggregated heat map lies in `[0, 1]`:
painting overwrites face pixels to 0.6 (no accumulation across overlapping
rectangles), the added normalized saliency is at most 0.4, so each per-frame
contribution lies in `[0, 1]`, and dividing the elementwise sum by the frame
count keeps the aggregate there. -/
theorem heatmap_values_in_unit_interval (width height : Nat)
    (frames : List SampleFrame) (y x : Nat) (hy : y < height) (hx : x < width) :
    0 ≤ aggHeat width height frames y x ∧ aggHeat width height frames y x ≤ 1 := by
  simp only [aggHeat]
  by_cases hn : frames.length = 0
  · obtain rfl := List.length_eq_zero.mp hn
    simp
  · rw [if_neg hn]
    have hpos : (0:ℚ) < (frames.length : ℚ) := by
      exact_mod_cast Nat.pos_of_ne_zero hn
    have h0 : 0 ≤ (frames.map fun f => frameContrib width height f y x).sum := by
      refine List.sum_nonneg ?_
      intro v hv
      obtain ⟨f, _, rfl⟩ := List.mem_map.mp hv
      exact frameContrib_nonneg width height f y x hy hx
    have h1 : (frames.map fun f => frameContrib width height f y x).sum ≤
        (frames.length : ℚ) := by
      have hb : ∀ v ∈ frames.map fun f => frameContrib width height f y x, v ≤ (1:ℚ) := by
        intro v hv
        obtain ⟨f, _, rfl⟩ := List.mem_map.mp hv
        exact frameContrib_le_one width height f y x hy hx
      have := List.sum_le_card_nsmul
        (frames.map fun f => frameContrib width height f y x) 1 hb
      rw [List.length_map] at this
      simpa using this
    exact ⟨div_nonneg h0 (le_of_lt hpos), (div_le_one hpos).mpr h1⟩

/-- Witness for C10 at a concrete 2x2 frame with one face and zero saliency. -/
theorem heatmap_values_in_unit_interval_w :
    0 ≤ aggHeat 2 2 [⟨[⟨0, 0, 1, 1⟩], fun _ _ => 0⟩] 0 0 ∧
      aggHeat 2 2 [⟨[⟨0, 0, 1, 1⟩], fun _ _ => 0⟩] 0 0 ≤ 1 :=
  heatmap_values_in_unit_interval 2 2 [⟨[⟨0, 0, 1, 1⟩], fun _ _ => 0⟩] 0 0
    (by decide) (by decide)

/-! ## Heuristic positional crop, stage 3 (clip.py lines 676-751)

The five candidate positions are built at 692-727 from the probed `width` and
`height` (floats), with `target_width = height * (9/16)` and each `x` clamped
by `max(0, ...)`.  Test frames are cropped to disk for each candidate at
731-743, but clip.py 748 selects the `golden_left` entry by its description
tag alone: `next((pos for _, pos in test_frames if pos['desc'] ==
'golden_left'), crop_positions[0])`.  The pixel content of the extracted test
frames is never inspected. -/

inductive PosDesc where
  | center
  | golden_left
  | golden_right
  | left_align
  | right_align
deriving DecidableEq, Repr

structure CropPos where
  x : ℚ
  y : ℚ
  w : ℚ
  h : ℚ
  desc : PosDesc
deriving DecidableEq, Repr

def golden_ratio : ℚ := 0.618

def cropPositions (width height : ℚ) : List CropPos :=
  let target_height := height
  let target_width := height * (9/16)
  [ ⟨max 0 ((width - target_width) / 2), 0, target_width, target_height,
      PosDesc.center⟩,
    ⟨max 0 ((width - target_width) * golden_ratio), 0, target_width, target_height,
      PosDesc.golden_left⟩,
    ⟨max 0 ((width - target_width) * (1 - golden_ratio)), 0, target_width,
      target_height, PosDesc.golden_right⟩,
    ⟨0, 0, target_width, target_height, PosDesc.left_align⟩,
    ⟨max 0 (width - target_width), 0, target_width, target_height,
      PosDesc.right_align⟩ ]

/-- clip.py 748: pick the `golden_left` entry (defaulting to
`crop_positions[0]`); `frames` stands for the pixel content of the extracted
test frames, which the selection never reads. -/
def selectHeuristicPos (width height : ℚ) (frames : List (Nat → Nat → ℚ)) : CropPos :=
  match (cropPositions width height).find? (fun p => p.desc == PosDesc.golden_left) with
  | some p => p
  | none =>
      match cropPositions width height with
      | p :: _ => p
      | [] => ⟨0, 0, 0, 0, PosDesc.center⟩

theorem selectHeuristicPos_eq (width height : ℚ) (frames : List (Nat → Nat → ℚ)) :
    selectHeuristicPos width height frames =
      ⟨max 0 ((width - height * (9/16)) * golden_ratio), 0, height * (9/16), height,
        PosDesc.golden_left⟩ := rfl

/-- Claim C6 counterexample: for a 500-wide, 1000-tall (portrait) input the
code clamps the golden-left offset to 0 (`max(0, ...)`, clip.py 688), so the
selected `x` is not `(width - target_width) * 0.618`, which is negative
there. -/
theorem heuristic_golden_left_clamp_cex :
    (selectHeuristicPos 500 1000 []).x = 0 ∧
      (selectHeuristicPos 500 1000 []).x ≠
        ((500:ℚ) - 1000 * (9/16)) * golden_ratio := by
  have hx : (selectHeuristicPos 500 1000 []).x =
      max 0 (((500:ℚ) - 1000 * (9/16)) * golden_ratio) := by
    rw [selectHeuristicPos_eq]
  have hneg : ((500:ℚ) - 1000 * (9/16)) * golden_ratio < 0 := by
    norm_num [golden_ratio]
  have h0 : (selectHeuristicPos 500 1000 []).x = 0 := by
    rw [hx, max_eq_left (le_of_lt hneg)]
  refine ⟨h0, ?_⟩
  rw [h0]
  intro hcon
  rw [← hcon] at hneg
  exact absurd hneg (lt_irrefl 0)

/-- Claim C6 amended: stage 3 always selects the golden-ratio-from-left
candidate, with `x = max(0, (width - target_width) * 0.618)` — equal to
`(width - target_width) * 0.618` whenever the 9:16 target width fits inside
the frame — target height equal to the frame height and target width equal
to `height * 9/16`, independently of the pixel content of the extracted test
frames; the other four candidates are never chosen. -/
theorem heuristic_golden_left_selection (width height : ℚ)
    (frames : List (Nat → Nat → ℚ)) :
    selectHeuristicPos width height frames =
      ⟨max 0 ((width - height * (9/16)) * golden_ratio), 0, height * (9/16), height,
        PosDesc.golden_left⟩ ∧
    (height * (9/16) ≤ width →
      (selectHeuristicPos width height frames).x =
        (width - height * (9/16)) * golden_ratio) := by
  refine ⟨selectHeuristicPos_eq width height frames, ?_⟩
  intro hle
  rw [selectHeuristicPos_eq]
  show max 0 ((width - height * (9/16)) * golden_ratio) = _
  exact max_eq_right (mul_nonneg (by linarith) (by norm_num [golden_ratio]))

/-- Witness for C6's amended claim at the spec's 1000x1000 scenario. -/
theorem heuristic_golden_left_selection_w :
    (selectHeuristicPos 1000 1000 []).x = ((1000:ℚ) - 1000 * (9/16)) * golden_ratio :=
  (heuristic_golden_left_selection 1000 1000 []).2 (by norm_num)

/-! ## Cascade control flow and filesystem effects (clip.py 187-842)

The four strategies run in source order inside `resize_for_tiktok`; every
stage body is wrapped in `try/except` (or guarded by availability flags), so
a stage failure falls through to the next stage and a stage returning `True`
terminates the function.  Each stage's final encode invokes ffmpeg with the
final `output_file` as destination (clip.py 375, 598, 769, 813), never a
temporary name; a failed encode is modelled as leaving a broken (partial)
file at that path, a successful one a complete file.  Directory effects:
stage 1 creates `temp_resize` (275) and never removes it; stage 2 creates its
`mkdtemp` analysis dir (449) and removes it only on the path that reaches the
step-5 ffmpeg call (608-612); stage 3 creates `scene_analysis` (661) and
removes it only when at least one analysis frame was extracted (781).

External outcomes are abstracted as booleans: `s2Detect` = scene detection
reaches the `mkdtemp` of line 449 without raising, `s2Analyze` = the analysis
of 456-578 reaches the ffmpeg call of 601 without raising, `s2Encode` = that
ffmpeg call returns 0, and similarly for the other stages. -/

inductive FState where
  | absent
  | broken
  | complete
deriving DecidableEq, Repr

/-- One ClipsAI crop segment as consumed by clip.py 282-304; every field is
read with `.get(...)` and may be missing. -/
structure Seg where
  start_time : Option ℚ
  end_time : Option ℚ
  x : Option ℚ
  y : Option ℚ
  width : Option ℚ
  height : Option ℚ

/-- Segment validation of clip.py 287-304: a segment is skipped when its
times are missing, or its crop fields are missing, or width/height are
non-positive. -/
def segUsable (s : Seg) : Bool :=
  s.start_time.isSome && s.end_time.isSome && s.x.isSome && s.y.isSome &&
    (match s.width with
     | some w => decide ((0:ℚ) < w)
     | none => false) &&
    (match s.height with
     | some h => decide ((0:ℚ) < h)
     | none => false)

/-- Outcomes of the external collaborators for one invocation. -/
structure Env where
  resizeAvailable : Bool
  sceneDetectAvailable : Bool
  s1Crops : Option (List Seg)
  s1SegOk : Nat → Bool
  s1ConcatOk : Bool
  s2Detect : Bool
  s2Analyze : Bool
  s2Encode : Bool
  s3ProbeOk : Bool
  s3FramesNonempty : Bool
  s3EncodeOk : Bool
  s4Runs : Bool
  s4Ok : Bool

/-- Filesystem state relevant to one invocation: the final output path and
the three temporary working directories. -/
structure FS where
  output : FState
  tempResizeDir : Bool
  sceneAnalysisDir : Bool
  framesDir : Bool
deriving DecidableEq, Repr

def fsEmpty : FS := ⟨FState.absent, false, false, false⟩

/-- Effect of an ffmpeg encode targeting the final output path: it overwrites
(`-y`) the file, leaving a complete file on success and a broken partial file
on failure. -/
def writeOutput (ok : Bool) (fs : FS) : FS :=
  { fs with output := if ok then FState.complete else FState.broken }

/-- Stage 1 (clip.py 207-404): ClipsAI resize.  `s1Crops = none` models the
collaborator raising or returning no usable segments attribute (the raise at
404 is caught at 406); a `some []` raises `ValueError` before any directory
is created.  With at least one segment the `temp_resize` directory is created
(275), each usable segment is transcoded (`s1SegOk i`), and surviving segment
files are concatenated into the output (`s1ConcatOk`, 368-391).  The
directory is never removed on any path. -/
def stage1Run (env : Env) (fs : FS) : Bool × FS :=
  match env.s1Crops with
  | none => (false, fs)
  | some segs =>
      if segs.isEmpty then (false, fs)
      else
        let fs1 := { fs with tempResizeDir := true }
        let surv := segs.enum.filter fun p => segUsable p.2 && env.s1SegOk p.1
        if surv.isEmpty then (false, fs1)
        else (env.s1ConcatOk, writeOutput env.s1ConcatOk fs1)

/-- Stage 2 (clip.py 412-627): scene+saliency+face crop.  The analysis dir is
created by `mkdtemp` (449) once detection gets that far, removed at 608-612
only when control reaches the step-5 encode, whose ffmpeg call targets the
output path directly (598). -/
def stage2Run (env : Env) (fs : FS) : Bool × FS :=
  let created := env.sceneDetectAvailable && env.s2Detect
  let fs1 := if created then { fs with sceneAnalysisDir := true } else fs
  let reached := created && env.s2Analyze
  let fs2 :=
    if reached then writeOutput env.s2Encode { fs1 with sceneAnalysisDir := false }
    else fs1
  (reached && env.s2Encode, fs2)

/-- Stage 3 (clip.py 631-796): heuristic positional crop.  The
`scene_analysis` frames dir is created after a successful probe (661),
removed at 780-783 only when at least one analysis frame was extracted; the
encode targets the output path (769). -/
def stage3Run (env : Env) (fs : FS) : Bool × FS :=
  let fs1 := if env.s3ProbeOk then { fs with framesDir := true } else fs
  let reached := env.s3ProbeOk && env.s3FramesNonempty
  let fs2 :=
    if reached then writeOutput env.s3EncodeOk { fs1 with framesDir := false }
    else fs1
  (reached && env.s3EncodeOk, fs2)

/-- Stage 4 (clip.py 798-832): rule-of-thirds crop straight to the output
path (813); `s4Runs = false` models the ffmpeg invocation itself raising. -/
def stage4Run (env : Env) (fs : FS) : Bool × FS :=
  (env.s4Runs && env.s4Ok, if env.s4Runs then writeOutput env.s4Ok fs else fs)

/-- The cascade driver of `resize_for_tiktok`: stages attempted in source
order, the first stage returning `True` terminates with its index, and after
stage 4 fails the function returns `False` (clip.py 834-836). -/
def resize_for_tiktok (env : Env) (fs : FS) : Option Nat × FS :=
  if !env.resizeAvailable then (none, fs)
  else
    let r1 := stage1Run env fs
    if r1.1 then (some 1, r1.2)
    else
      let r2 := stage2Run env r1.2
      if r2.1 then (some 2, r2.2)
      else
        let r3 := stage3Run env r2.2
        if r3.1 then (some 3, r3.2)
        else
          let r4 := stage4Run env r3.2
          if r4.1 then (some 4, r4.2) else (none, r4.2)

def stage1Succeeds (env : Env) : Bool :=
  match env.s1Crops with
  | none => false
  | some segs =>
      !segs.isEmpty &&
        !(segs.enum.filter fun p => segUsable p.2 && env.s1SegOk p.1).isEmpty &&
        env.s1ConcatOk

def stage2Succeeds (env : Env) : Bool :=
  env.sceneDetectAvailable && env.s2Detect && env.s2Analyze && env.s2Encode

def stage3Succeeds (env : Env) : Bool :=
  env.s3ProbeOk && env.s3FramesNonempty && env.s3EncodeOk

def stage4Succeeds (env : Env) : Bool :=
  env.s4Runs && env.s4Ok

/-- Stage 1 created the `temp_resize` directory. -/
def stage1MadeDir (env : Env) : Bool :=
  match env.s1Crops with
  | none => false
  | some segs => !segs.isEmpty

def stage2MadeDir (env : Env) : Bool :=
  env.sceneDetectAvailable && env.s2Detect

def stage2ReachedEncode (env : Env) : Bool :=
  stage2MadeDir env && env.s2Analyze

def stage3ReachedEncode (env : Env) : Bool :=
  env.s3ProbeOk && env.s3FramesNonempty

/-! ## Per-stage lemmas -/

theorem stage1Run_fst (env : Env) (fs : FS) :
    (stage1Run env fs).1 = stage1Succeeds env := by
  unfold stage1Run stage1Succeeds
  cases h : env.s1Crops with
  | none => rfl
  | some segs =>
      by_cases hse : segs.isEmpty
      · simp [hse]
      · by_cases hsv : (segs.enum.filter fun p => segUsable p.2 && env.s1SegOk p.1).isEmpty
        · simp [hse, hsv]
        · simp [hse, hsv]

theorem stage1Run_tempDir (env : Env) (fs : FS) :
    (stage1Run env fs).2.tempResizeDir = (fs.tempResizeDir || stage1MadeDir env) := by
  unfold stage1Run stage1MadeDir
  cases h : env.s1Crops with
  | none => simp
  | some segs =>
      by_cases hse : segs.isEmpty
      · simp [hse]
      · by_cases hsv : (segs.enum.filter fun p => segUsable p.2 && env.s1SegOk p.1).isEmpty
        · simp [hse, hsv]
        · simp [hse, hsv, writeOutput]

theorem stage1Run_sceneDir (env : Env) (fs : FS) :
    (stage1Run env fs).2.sceneAnalysisDir = fs.sceneAnalysisDir := by
  unfold stage1Run
  cases h : env.s1Crops with
  | none => rfl
  | some segs =>
      by_cases hse : segs.isEmpty
      · simp [hse]
      · by_cases hsv : (segs.enum.filter fun p => segUsable p.2 && env.s1SegOk p.1).isEmpty
        · simp [hse, hsv]
        · simp [hse, hsv, writeOutput]

theorem stage1Run_framesDir (env : Env) (fs : FS) :
    (stage1Run env fs).2.framesDir = fs.framesDir := by
  unfold stage1Run
  cases h : env.s1Crops with
  | none => rfl
  | some segs =>
      by_cases hse : segs.isEmpty
      · simp [hse]
      · by_cases hsv : (segs.enum.filter fun p => segUsable p.2 && env.s1SegOk p.1).isEmpty
        · simp [hse, hsv]
        · simp [hse, hsv, writeOutput]

theorem stage1Run_output_of_true (env : Env) (fs : FS)
    (h : (stage1Run env fs).1 = true) :
    (stage1Run env fs).2.output = FState.complete := by
  revert h
  unfold stage1Run
  cases hc : env.s1Crops with
  | none => intro h; cases h
  | some segs =>
      by_cases hse : segs.isEmpty
      · simp [hse]
      · by_cases hsv : (segs.enum.filter fun p => segUsable p.2 && env.s1SegOk p.1).isEmpty
        · simp [hse, hsv]
        · simp only [hse, hsv, if_neg, Bool.not_eq_true, if_false]
          intro h
          simp [hse, hsv, writeOutput, h]

theorem stage2Run_fst (env : Env) (fs : FS) :
    (stage2Run env fs).1 = stage2Succeeds env := by
  simp [stage2Run, stage2Succeeds, Bool.and_assoc]

theorem stage2Run_tempDir (env : Env) (fs : FS) :
    (stage2Run env fs).2.tempResizeDir = fs.tempResizeDir := by
  simp only [stage2Run, writeOutput]
  split_ifs <;> rfl

theorem stage2Run_framesDir (env : Env) (fs : FS) :
    (stage2Run env fs).2.framesDir = fs.framesDir := by
  simp only [stage2Run, writeOutput]
  split_ifs <;> rfl

theorem stage2Run_sceneDir (env : Env) (fs : FS) :
    (stage2Run env fs).2.sceneAnalysisDir =
      (if stage2ReachedEncode env = true then false
       else fs.sceneAnalysisDir || stage2MadeDir env) := by
  unfold stage2Run stage2ReachedEncode stage2MadeDir
  cases h1 : env.sceneDetectAvailable && env.s2Detect with
  | false => simp [h1]
  | true =>
      cases h2 : env.s2Analyze with
      | false => simp [h1, h2]
      | true => simp [h1, h2, writeOutput]

theorem stage2Run_output_of_true (env : Env) (fs : FS)
    (h : (stage2Run env fs).1 = true) :
    (stage2Run env fs).2.output = FState.complete := by
  revert h
  unfold stage2Run
  cases h1 : env.sceneDetectAvailable && env.s2Detect with
  | false => simp [h1]
  | true =>
      cases h2 : env.s2Analyze with
      | false => simp [h1, h2]
      | true =>
          cases h3 : env.s2Encode with
          | false => simp [h1, h2, h3]
          | true => simp [h1, h2, h3, writeOutput]

theorem stage3Run_fst (env : Env) (fs : FS) :
    (stage3Run env fs).1 = stage3Succeeds env := by
  simp [stage3Run, stage3Succeeds, Bool.and_assoc]

theorem stage3Run_tempDir (env : Env) (fs : FS) :
    (stage3Run env fs).2.tempResizeDir = fs.tempResizeDir := by
  simp only [stage3Run, writeOutput]
  split_ifs <;> rfl

theorem stage3Run_sceneDir (env : Env) (fs : FS) :
    (stage3Run env fs).2.sceneAnalysisDir = fs.sceneAnalysisDir := by
  simp only [stage3Run, writeOutput]
  split_ifs <;> rfl

theorem stage3Run_framesDir (env : Env) (fs : FS) :
    (stage3Run env fs).2.framesDir =
      (if stage3ReachedEncode env = true then false
       else fs.framesDir || env.s3ProbeOk) := by
  unfold stage3Run stage3ReachedEncode
  cases h1 : env.s3ProbeOk with
  | false => simp [h1]
  | true =>
      cases h2 : env.s3FramesNonempty with
      | false => simp [h1, h2]
      | true => simp [h1, h2, writeOutput]

theorem stage3Run_output_of_true (env : Env) (fs : FS)
    (h : (stage3Run env fs).1 = true) :
    (stage3Run env fs).2.output = FState.complete := by
  revert h
  unfold stage3Run
  cases h1 : env.s3ProbeOk with
  | false => simp [h1]
  | true =>
      cases h2 : env.s3FramesNonempty with
      | false => simp [h1, h2]
      | true =>
          cases h3 : env.s3EncodeOk with
          | false => simp [h1, h2, h3]
          | true => simp [h1, h2, h3, writeOutput]

theorem stage4Run_fst (env : Env) (fs : FS) :
    (stage4Run env fs).1 = stage4Succeeds env := rfl

theorem stage4Run_tempDir (env : Env) (fs : FS) :
    (stage4Run env fs).2.tempResizeDir = fs.tempResizeDir := by
  simp only [stage4Run, writeOutput]
  split_ifs <;> rfl

theorem stage4Run_sceneDir (env : Env) (fs : FS) :
    (stage4Run env fs).2.sceneAnalysisDir = fs.sceneAnalysisDir := by
  simp only [stage4Run, writeOutput]
  split_ifs <;> rfl

theorem stage4Run_framesDir (env : Env) (fs : FS) :
    (stage4Run env fs).2.framesDir = fs.framesDir := by
  simp only [stage4Run, writeOutput]
  split_ifs <;> rfl

theorem stage4Run_output_of_true (env : Env) (fs : FS)
    (h : (stage4Run env fs).1 = true) :
    (stage4Run env fs).2.output = FState.complete := by
  revert h
  unfold stage4Run
  cases h1 : env.s4Runs with
  | false => simp [h1]
  | true =>
      cases h2 : env.s4Ok with
      | false => simp [h1, h2]
      | true => simp [h1, h2, writeOutput]

theorem stage4Run_output_broken (env : Env) (fs : FS)
    (hr : env.s4Runs = true) (hf : (stage4Run env fs).1 = false) :
    (stage4Run env fs).2.output = FState.broken := by
  revert hf
  unfold stage4Run
  cases h2 : env.s4Ok with
  | false => simp [hr, h2, writeOutput]
  | true => simp [hr, h2]

/-! ## Concrete environments used by the cascade claims -/

/-- Stage 1 fails (collaborator raised), stage 2 succeeds. -/
def env0 : Env :=
  { resizeAvailable := true, sceneDetectAvailable := true,
    s1Crops := none, s1SegOk := fun _ => false, s1ConcatOk := false,
    s2Detect := true, s2Analyze := true, s2Encode := true,
    s3ProbeOk := true, s3FramesNonempty := true, s3EncodeOk := true,
    s4Runs := true, s4Ok := true }

/-- Every stage fails; stage 4's encoder runs and its ffmpeg call fails. -/
def envAllFail : Env :=
  { resizeAvailable := true, sceneDetectAvailable := true,
    s1Crops := none, s1SegOk := fun _ => false, s1ConcatOk := false,
    s2Detect := true, s2Analyze := true, s2Encode := false,
    s3ProbeOk := true, s3FramesNonempty := true, s3EncodeOk := false,
    s4Runs := true, s4Ok := false }

/-- One fully valid ClipsAI segment. -/
def seg0 : Seg := ⟨some 0, some 1, some 0, some 0, some 1, some 1⟩

/-- Stage 1 succeeds on a single valid segment. -/
def envS1Leak : Env :=
  { resizeAvailable := true, sceneDetectAvailable := true,
    s1Crops := some [seg0], s1SegOk := fun _ => true, s1ConcatOk := true,
    s2Detect := true, s2Analyze := true, s2Encode := true,
    s3ProbeOk := true, s3FramesNonempty := true, s3EncodeOk := true,
    s4Runs := true, s4Ok := true }

/-- Claim C4: the cascade attempts its four strategies in the fixed source
order; any stage failure (raise, empty result, or failed transcode) is
non-fatal and control falls through to the next stage; a stage that succeeds
terminates the cascade immediately with its output, and only when all four
stages fail does the cascade report overall failure. -/
theorem cascade_fallthrough_order (env : Env) (fs : FS)
    (hav : env.resizeAvailable = true) :
    ((resize_for_tiktok env fs).1 = some 1 ↔ stage1Succeeds env = true) ∧
    (stage1Succeeds env = false →
      ((resize_for_tiktok env fs).1 = some 2 ↔ stage2Succeeds env = true)) ∧
    (stage1Succeeds env = false → stage2Succeeds env = false →
      ((resize_for_tiktok env fs).1 = some 3 ↔ stage3Succeeds env = true)) ∧
    (stage1Succeeds env = false → stage2Succeeds env = false →
      stage3Succeeds env = false →
      ((resize_for_tiktok env fs).1 = some 4 ↔ stage4Succeeds env = true)) ∧
    ((resize_for_tiktok env fs).1 = none ↔
      (stage1Succeeds env = false ∧ stage2Succeeds env = false ∧
       stage3Succeeds env = false ∧ stage4Succeeds env = false)) := by
  cases h1 : stage1Succeeds env <;> cases h2 : stage2Succeeds env <;>
    cases h3 : stage3Succeeds env <;> cases h4 : stage4Succeeds env <;>
    simp [resize_for_tiktok, hav, stage1Run_fst, stage2Run_fst, stage3Run_fst,
      stage4Run_fst, h1, h2, h3, h4]

/-- Witness for C4: stage 1 fails, stage 2 succeeds and terminates the
cascade. -/
theorem cascade_fallthrough_order_w :
    (resize_for_tiktok env0 fsEmpty).1 = some 2 :=
  ((cascade_fallthrough_order env0 fsEmpty rfl).2.1 rfl).mpr rfl

/-- Claim C8 counterexample: with every stage failing (stage 4's encoder
invoked but its transcode failing), the cascade reports failure while a
broken partial file remains at the final output path — every encode targets
the final path directly (clip.py 375, 598, 769, 813), with no temp-then-
publish step, so a failed transcode's partial output is not cleaned up. -/
theorem output_not_atomic_cex :
    (resize_for_tiktok envAllFail fsEmpty).1 = none ∧
      (resize_for_tiktok envAllFail fsEmpty).2.output = FState.broken :=
  ⟨rfl, rfl⟩

/-- Claim C8 amended: each stage's transcode writes directly to the final
output path (no atomic temp-then-rename publish): a cascade that succeeds
leaves a complete file there, and a cascade that fails with stage 4's
encoder having run leaves that failed attempt's partial file at the target
path. -/
theorem output_write_direct (env : Env) (fs : FS)
    (hav : env.resizeAvailable = true) :
    ((resize_for_tiktok env fs).1 ≠ none →
      (resize_for_tiktok env fs).2.output = FState.complete) ∧
    ((resize_for_tiktok env fs).1 = none → env.s4Runs = true →
      (resize_for_tiktok env fs).2.output = FState.broken) := by
  cases h1 : stage1Succeeds env with
  | true =>
      have hres : resize_for_tiktok env fs = (some 1, (stage1Run env fs).2) := by
        simp [resize_for_tiktok, hav, stage1Run_fst, h1]
      rw [hres]
      refine ⟨fun _ => stage1Run_output_of_true env fs (by rw [stage1Run_fst, h1]), ?_⟩
      intro hcon
      simp at hcon
  | false =>
      cases h2 : stage2Succeeds env with
      | true =>
          have hres : resize_for_tiktok env fs =
              (some 2, (stage2Run env (stage1Run env fs).2).2) := by
            simp [resize_for_tiktok, hav, stage1Run_fst, stage2Run_fst, h1, h2]
          rw [hres]
          refine ⟨fun _ => stage2Run_output_of_true env _ (by rw [stage2Run_fst, h2]), ?_⟩
          intro hcon
          simp at hcon
      | false =>
          cases h3 : stage3Succeeds env with
          | true =>
              have hres : resize_for_tiktok env fs =
                  (some 3, (stage3Run env (stage2Run env (stage1Run env fs).2).2).2) := by
                simp [resize_for_tiktok, hav, stage1Run_fst, stage2Run_fst,
                  stage3Run_fst, h1, h2, h3]
              rw [hres]
              refine ⟨fun _ =>
                stage3Run_output_of_true env _ (by rw [stage3Run_fst, h3]), ?_⟩
              intro hcon
              simp at hcon
          | false =>
              cases h4 : stage4Succeeds env with
              | true =>
                  have hres : resize_for_tiktok env fs =
                      (some 4, (stage4Run env (stage3Run env
                        (stage2Run env (stage1Run env fs).2).2).2).2) := by
                    simp [resize_for_tiktok, hav, stage1Run_fst, stage2Run_fst,
                      stage3Run_fst, stage4Run_fst, h1, h2, h3, h4]
                  rw [hres]
                  refine ⟨fun _ =>
                    stage4Run_output_of_true env _ (by rw [stage4Run_fst, h4]), ?_⟩
                  intro hcon
                  simp at hcon
              | false =>
                  have hres : resize_for_tiktok env fs =
                      (none, (stage4Run env (stage3Run env
                        (stage2Run env (stage1Run env fs).2).2).2).2) := by
                    simp [resize_for_tiktok, hav, stage1Run_fst, stage2Run_fst,
                      stage3Run_fst, stage4Run_fst, h1, h2, h3, h4]
                  rw [hres]
                  refine ⟨fun hcon => absurd rfl hcon, ?_⟩
                  intro _ hrun
                  exact stage4Run_output_broken env _ hrun (by rw [stage4Run_fst, h4])

/-- Witness for C8's amended claim: a cascade succeeding at stage 2 leaves a
complete file at the output path. -/
theorem output_write_direct_w :
    (resize_for_tiktok env0 fsEmpty).2.output = FState.complete :=
  (output_write_direct env0 fsEmpty rfl).1 (by decide)

/-- Claim C9 counterexample: a successful stage-1 run (one valid segment,
segment transcode and concatenation both succeeding) terminates the cascade
with the `temp_resize` directory it created still existing — clip.py has no
removal of that directory on any path. -/
theorem temp_dir_leak_cex :
    (resize_for_tiktok envS1Leak fsEmpty).1 = some 1 ∧
      (resize_for_tiktok envS1Leak fsEmpty).2.tempResizeDir = true := by
  have hseg : segUsable seg0 = true := by
    unfold segUsable seg0
    norm_num
  have hsucc : stage1Succeeds envS1Leak = true := by
    simp [stage1Succeeds, envS1Leak, List.enum, List.enumFrom, List.filter, hseg]
  have hres : resize_for_tiktok envS1Leak fsEmpty =
      (some 1, (stage1Run envS1Leak fsEmpty).2) := by
    simp [resize_for_tiktok, stage1Run_fst, hsucc,
      show envS1Leak.resizeAvailable = true from rfl]
  rw [hres]
  refine ⟨rfl, ?_⟩
  rw [stage1Run_tempDir]
  rfl

/-- Claim C9 amended: the stage-2 analysis directory is removed exactly on
the paths that reach its final encode (even when that encode fails), and
likewise the stage-3 frames directory; but a stage interrupted before its
encode leaves its directory behind, and the stage-1 `temp_resize` directory
is never removed on any path, success included. -/
theorem temp_dir_cleanup_paths (env : Env) (fs : FS)
    (hav : env.resizeAvailable = true) :
    ((resize_for_tiktok env fs).2.tempResizeDir =
      (fs.tempResizeDir || stage1MadeDir env)) ∧
    (stage1Succeeds env = false →
      (resize_for_tiktok env fs).2.sceneAnalysisDir =
        (if stage2ReachedEncode env = true then false
         else fs.sceneAnalysisDir || stage2MadeDir env)) ∧
    (stage1Succeeds env = false → stage2Succeeds env = false →
      (resize_for_tiktok env fs).2.framesDir =
        (if stage3ReachedEncode env = true then false
         else fs.framesDir || env.s3ProbeOk)) := by
  refine ⟨?_, ?_, ?_⟩
  · cases h1 : stage1Succeeds env <;> cases h2 : stage2Succeeds env <;>
      cases h3 : stage3Succeeds env <;> cases h4 : stage4Succeeds env <;>
      simp [resize_for_tiktok, hav, stage1Run_fst, stage2Run_fst, stage3Run_fst,
        stage4Run_fst, h1, h2, h3, h4, stage1Run_tempDir, stage2Run_tempDir,
        stage3Run_tempDir, stage4Run_tempDir]
  · intro h1
    cases h2 : stage2Succeeds env <;> cases h3 : stage3Succeeds env <;>
      cases h4 : stage4Succeeds env <;>
      simp [resize_for_tiktok, hav, stage1Run_fst, stage2Run_fst, stage3Run_fst,
        stage4Run_fst, h1, h2, h3, h4, stage1Run_sceneDir, stage2Run_sceneDir,
        stage3Run_sceneDir, stage4Run_sceneDir]
  · intro h1 h2
    cases h3 : stage3Succeeds env <;> cases h4 : stage4Succeeds env <;>
      simp [resize_for_tiktok, hav, stage1Run_fst, stage2Run_fst, stage3Run_fst,
        stage4Run_fst, h1, h2, h3, h4, stage1Run_framesDir, stage2Run_framesDir,
        stage3Run_framesDir, stage4Run_framesDir]

/-- Witness for C9's amended claim: after a run whose stage 2 reaches and
fails its encode, the analysis directory is gone. -/
theorem temp_dir_cleanup_paths_w :
    (resize_for_tiktok envAllFail fsEmpty).2.sceneAnalysisDir = false :=
  ((temp_dir_cleanup_paths envAllFail fsEmpty rfl).2.1 rfl).trans (by decide)

end Trod
